import Mathlib

/-!
Verification of the THE64 GUI Gamepad mapping tool.

This file gives a shallow embedding, in Lean 4, of the pure computational
core of `gamepad_guid.c` and `gamepad_map.c`: GUID construction, gamepad
capability probing, button/axis enumeration, mapping-input capture, the
mapping-string serializer, the review/browse state transitions and the
controller registry scan.  Device I/O (ioctl results, directory listings,
file opens) is modelled by explicit data passed to the embedded functions:
capability bit-fields become `Nat → Bool` predicates, the event stream
becomes a `List` of events, and the filesystem becomes an oracle.
C `int` arithmetic is embedded as `Int` (the quantities involved -- axis
ranges, indices, event values -- never approach 32-bit overflow), and C
truncating division is `Int.tdiv`.

Theorems named `C1` .. `C10` in their doc comments settle the corresponding
claims about the specification.
-/

/- ================================================================
   GUID construction (`build_guid` in gamepad_guid.c:90-118 and
   gamepad_map.c:505-528; the two copies are textually identical).
   ================================================================ -/

/-- The hex digit table of the source: `static const char hex[] = "0123456789abcdef"`. -/
def hexTable : List Char := "0123456789abcdef".data

/-- `hex[n]` lookup (in the source `n` is always `< 16`; the default is never used). -/
def hexChar (n : Nat) : Char := hexTable.getD n '0'

/-- The two hex digits the source writes for one GUID byte:
`hex[guid[i] >> 4]` then `hex[guid[i] & 0x0F]`. -/
def byteHexChars (b : Nat) : List Char := [hexChar (b / 16), hexChar (b % 16)]

/-- The 16-byte layout filled into `guid[0..15]` by `build_guid`.  The C fields
are `__u16`; `x % 256` is `x & 0xFF` and `x / 256 % 256` is `(x >> 8) & 0xFF`. -/
def guidBytes (bustype vendor product version : Nat) : List Nat :=
  [bustype % 256, bustype / 256 % 256, 0, 0,
   vendor  % 256, vendor  / 256 % 256, 0, 0,
   product % 256, product / 256 % 256, 0, 0,
   version % 256, version / 256 % 256, 0, 0]

/-- `build_guid`: render the 16 GUID bytes as 32 hex characters. -/
def build_guid (bustype vendor product version : Nat) : String :=
  ⟨(guidBytes bustype vendor product version).flatMap byteHexChars⟩

/-- Spec-side little-endian u16 byte pair, from the spec's words
"little-endian `bustype`(u16)" etc. -/
def u16le (x : Nat) : List Nat := [x % 256, x / 256 % 256]

/-- Spec-side GUID byte layout: little-endian bustype, two zero bytes,
little-endian vendor, two zero bytes, little-endian product, two zero bytes,
little-endian version, two zero bytes. -/
def specGuidBytes (bustype vendor product version : Nat) : List Nat :=
  u16le bustype ++ [0, 0] ++ u16le vendor ++ [0, 0] ++
  u16le product ++ [0, 0] ++ u16le version ++ [0, 0]

/-- Spec-side lowercase-hex rendering of one byte, written independently of the
source's table via `Nat.digitChar`. -/
def specByteHex (b : Nat) : List Char := [Nat.digitChar (b / 16), Nat.digitChar (b % 16)]

/-- Spec-side GUID string: the 32-character lowercase-hex rendering of the layout. -/
def specGuid (bustype vendor product version : Nat) : String :=
  ⟨(specGuidBytes bustype vendor product version).flatMap specByteHex⟩

theorem hexChar_eq_digitChar : ∀ n, n < 16 → hexChar n = Nat.digitChar n := by decide

theorem hexChar_mem (n : Nat) : hexChar n ∈ hexTable := by
  unfold hexChar
  rcases Nat.lt_or_ge n 16 with h | h
  · have h16 : n < hexTable.length := by simpa [hexTable] using h
    rw [List.getD_eq_getElem?_getD, List.getElem?_eq_getElem h16]
    exact List.getElem_mem h16
  · have hlen : hexTable.length ≤ n := by simpa [hexTable] using h
    rw [List.getD_eq_getElem?_getD, List.getElem?_eq_none hlen]
    simp [hexTable]

theorem guidBytes_lt (bustype vendor product version : Nat) :
    ∀ x ∈ guidBytes bustype vendor product version, x < 256 := by
  intro x hx
  simp only [guidBytes, List.mem_cons, List.not_mem_nil, or_false] at hx
  rcases hx with rfl | rfl | rfl | rfl | rfl | rfl | rfl | rfl |
    rfl | rfl | rfl | rfl | rfl | rfl | rfl | rfl <;> omega

theorem byteHexChars_eq_spec (b : Nat) (hb : b < 256) : byteHexChars b = specByteHex b := by
  unfold byteHexChars specByteHex
  rw [hexChar_eq_digitChar (b / 16) (by omega), hexChar_eq_digitChar (b % 16) (by omega)]

theorem flatMap_byteHexChars_length (l : List Nat) :
    (l.flatMap byteHexChars).length = 2 * l.length := by
  induction l with
  | nil => rfl
  | cons a t ih => simp only [List.flatMap_cons, List.length_append, ih,
      byteHexChars, List.length_cons, List.length_nil, List.length_cons]; omega

/-- C1: `build_guid` is a pure total function of the four 16-bit identity
fields.  It coincides with the spec-side rendering (little-endian bustype,
two zero bytes, little-endian vendor, two zero bytes, little-endian product,
two zero bytes, little-endian version, two zero bytes, each byte as two
lowercase hex digits), its output is always 32 characters long, and every
output character is a lowercase hex digit.  Determinism on identical
quadruples is inherent: the embedding is a function of exactly these four
arguments. -/
theorem build_guid_spec (bustype vendor product version : Nat) :
    build_guid bustype vendor product version = specGuid bustype vendor product version ∧
    (build_guid bustype vendor product version).length = 32 ∧
    ∀ c ∈ (build_guid bustype vendor product version).data, c ∈ hexTable := by
  refine ⟨?_, ?_, ?_⟩
  · have hb : guidBytes bustype vendor product version =
        specGuidBytes bustype vendor product version := by
      simp [guidBytes, specGuidBytes, u16le]
    unfold build_guid specGuid
    rw [← hb]
    have : (guidBytes bustype vendor product version).flatMap byteHexChars =
        (guidBytes bustype vendor product version).flatMap specByteHex :=
      List.flatMap_congr fun x hx =>
        byteHexChars_eq_spec x (guidBytes_lt bustype vendor product version x hx)
    rw [this]
  · show ((guidBytes bustype vendor product version).flatMap byteHexChars).length = 32
    rw [flatMap_byteHexChars_length]
    rfl
  · intro c hc
    have hc' : c ∈ (guidBytes bustype vendor product version).flatMap byteHexChars := hc
    rw [List.mem_flatMap] at hc'
    obtain ⟨b, _, hcb⟩ := hc'
    simp only [byteHexChars, List.mem_cons, List.not_mem_nil, or_false] at hcb
    rcases hcb with rfl | rfl <;> exact hexChar_mem _

/- ================================================================
   Capability probing: `is_gamepad` (gamepad_guid.c:36-72 and
   gamepad_map.c:534-561, textually identical logic).
   Bit-fields obtained through `EVIOCGBIT` are modelled as predicates
   `Nat → Bool`; the embedding is the pure function of the bit-fields
   (the ioctl-failure early returns concern the I/O layer, not the
   capability logic the claims speak about).
   Constants: EV_KEY = 1, EV_ABS = 3, ABS_X = 0, ABS_Y = 1,
   BTN_JOYSTICK = 0x120 = 288, BTN_GAMEPAD = 0x130 = 304.
   ================================================================ -/

/-- `for (i = BTN_JOYSTICK; i < BTN_JOYSTICK + 16; i++)` scan range. -/
def btnJoystickRange : List Nat := List.range' 288 16

/-- `for (i = BTN_GAMEPAD; i < BTN_GAMEPAD + 16; i++)` scan range. -/
def btnGamepadRange : List Nat := List.range' 304 16

def is_gamepad (evbits absbits keybits : Nat → Bool) : Bool :=
  if evbits 3 && (absbits 0 && absbits 1) then true
  else if evbits 1 && (btnJoystickRange.any keybits || btnGamepadRange.any keybits) then true
  else false

theorem is_gamepad_eq_or (evbits absbits keybits : Nat → Bool) :
    is_gamepad evbits absbits keybits =
      (evbits 3 && (absbits 0 && absbits 1) ||
       evbits 1 && (btnJoystickRange.any keybits || btnGamepadRange.any keybits)) := by
  unfold is_gamepad
  cases h1 : evbits 3 && (absbits 0 && absbits 1) <;>
    cases h2 : evbits 1 && (btnJoystickRange.any keybits || btnGamepadRange.any keybits) <;>
    simp [h1, h2]

theorem btnRanges_any_iff (keybits : Nat → Bool) :
    (btnJoystickRange.any keybits || btnGamepadRange.any keybits) = true ↔
      ∃ b, ((288 ≤ b ∧ b < 304) ∨ (304 ≤ b ∧ b < 320)) ∧ keybits b = true := by
  simp only [btnJoystickRange, btnGamepadRange, Bool.or_eq_true, List.any_eq_true,
    List.mem_range'_1]
  constructor
  · rintro (⟨b, hb, hk⟩ | ⟨b, hb, hk⟩)
    · exact ⟨b, Or.inl (by omega), hk⟩
    · exact ⟨b, Or.inr (by omega), hk⟩
  · rintro ⟨b, hb | hb, hk⟩
    · exact Or.inl ⟨b, by omega, hk⟩
    · exact Or.inr ⟨b, by omega, hk⟩

/-- C8: provided the bit-fields are consistent in the way the kernel
guarantees (the `EV_ABS`/`EV_KEY` event-type bits are set whenever the
corresponding per-axis/per-key bits are), `is_gamepad` returns true iff the
device reports both `ABS_X` and `ABS_Y`, or reports at least one button in
`BTN_JOYSTICK..+16` or `BTN_GAMEPAD..+16`. -/
theorem is_gamepad_iff (evbits absbits keybits : Nat → Bool)
    (hA : (absbits 0 && absbits 1) = true → evbits 3 = true)
    (hK : (btnJoystickRange.any keybits || btnGamepadRange.any keybits) = true →
      evbits 1 = true) :
    is_gamepad evbits absbits keybits = true ↔
      ((absbits 0 = true ∧ absbits 1 = true) ∨
       ∃ b, ((288 ≤ b ∧ b < 304) ∨ (304 ≤ b ∧ b < 320)) ∧ keybits b = true) := by
  rw [is_gamepad_eq_or, ← btnRanges_any_iff keybits]
  constructor
  · intro h
    rcases Bool.or_eq_true_iff.mp h with h | h
    · simp only [Bool.and_eq_true] at h
      exact Or.inl ⟨h.2.1, h.2.2⟩
    · simp only [Bool.and_eq_true] at h
      exact Or.inr h.2
  · rintro (⟨h0, h1⟩ | h)
    · have : (absbits 0 && absbits 1) = true := by simp [h0, h1]
      simp [hA this, h0, h1]
    · simp [hK h, h]

/-- C8 witness: a device with only a `BTN_GAMEPAD` button (code 0x130). -/
theorem is_gamepad_iff_witness :
    is_gamepad (fun i => i == 1) (fun _ => false) (fun i => i == 304) = true ↔
      (((fun (_ : Nat) => false) 0 = true ∧ ((fun (_ : Nat) => false) 1 = true)) ∨
       ∃ b, ((288 ≤ b ∧ b < 304) ∨ (304 ≤ b ∧ b < 320)) ∧ (b == 304) = true) :=
  is_gamepad_iff (fun i => i == 1) (fun _ => false) (fun i => i == 304)
    (by decide) (by decide)

/- ================================================================
   Button/axis/hat enumeration: `enumerate_buttons_axes`
   (gamepad_map.c:563-611).
   Constants: BTN_MISC = 0x100 = 256, BTN_JOYSTICK = 0x120 = 288,
   KEY_MAX = 0x2ff = 767, ABS_MAX = 0x3f = 63,
   ABS_HAT0X = 0x10 = 16, ABS_HAT3Y = 0x17 = 23.
   ================================================================ -/

/-- Raw button codes in the order the source scans them:
`for (i = BTN_JOYSTICK; i < KEY_MAX; i++)` then
`for (i = BTN_MISC; i < BTN_JOYSTICK; i++)`. -/
def btnScanOrder : List Nat := List.range' 288 479 ++ List.range' 256 32

/-- Raw absolute-axis codes in scan order: `for (i = 0; i < ABS_MAX; i++)`. -/
def axisScanOrder : List Nat := List.range 63

/-- `i >= ABS_HAT0X && i <= ABS_HAT3Y`. -/
def isHatCode (i : Nat) : Bool := 16 ≤ i && i ≤ 23

/-- Sequential index assignment: walk `order`, give the next free index `n`
to each code whose capability bit is set (the `c->btn_map[i] = c->num_buttons++`
pattern of the source, as the association list it builds). -/
def assignSeq (bits : Nat → Bool) : List Nat → Nat → List (Nat × Nat)
  | [], _ => []
  | i :: rest, n =>
    if bits i then (i, n) :: assignSeq bits rest (n + 1) else assignSeq bits rest n

/-- The `btn_map` assignments of `enumerate_buttons_axes`. -/
def btnAssign (keybits : Nat → Bool) : List (Nat × Nat) :=
  assignSeq keybits btnScanOrder 0

/-- The `abs_map` assignments: sequential over set axis codes outside the hat
sub-range (`c->abs_map[i] = c->num_axes++` in the else branch). -/
def absAssign (absbits : Nat → Bool) : List (Nat × Nat) :=
  assignSeq (fun i => absbits i && !isHatCode i) axisScanOrder 0

/-- The `hat_map` assignments: `c->hat_map[i] = (i - ABS_HAT0X) / 2` for each
set code in the hat sub-range (two raw codes per hat). -/
def hatAssign (absbits : Nat → Bool) : List (Nat × Nat) :=
  (axisScanOrder.filter (fun i => absbits i && isHatCode i)).map
    (fun i => (i, (i - 16) / 2))

theorem assignSeq_eq_zip (bits : Nat → Bool) (l : List Nat) (n : Nat) :
    assignSeq bits l n = (l.filter bits).zip (List.range' n (l.filter bits).length) := by
  induction l generalizing n with
  | nil => rfl
  | cons i rest ih =>
    by_cases h : bits i
    · have hf : (i :: rest).filter bits = i :: rest.filter bits := by
        simp [List.filter_cons, h]
      rw [assignSeq, if_pos h, hf]
      rw [List.length_cons]
      show (i, n) :: assignSeq bits rest (n + 1) =
        (i :: rest.filter bits).zip (n :: List.range' (n + 1) (rest.filter bits).length)
      rw [List.zip_cons_cons, ih]
    · have hf : (i :: rest).filter bits = rest.filter bits := by
        simp [List.filter_cons, h]
      rw [assignSeq, if_neg h, hf, ih]

theorem assignSeq_fst (bits : Nat → Bool) (l : List Nat) :
    (assignSeq bits l 0).map Prod.fst = l.filter bits := by
  rw [assignSeq_eq_zip]
  exact List.map_fst_zip _ _ (by rw [List.length_range'])

theorem assignSeq_snd (bits : Nat → Bool) (l : List Nat) :
    (assignSeq bits l 0).map Prod.snd = List.range (l.filter bits).length := by
  rw [assignSeq_eq_zip, List.range_eq_range']
  exact List.map_snd_zip _ _ (by rw [List.length_range'])

/-- C4: `enumerate_buttons_axes` on a fixed capability bit-field.  The button
assignments cover exactly the set codes in scan order (joystick/gamepad range
`0x120..KEY_MAX` first, misc range `0x100..0x11f` second) with dense,
zero-based, sequential indices; the axis assignments cover the set axis codes
outside the hat sub-range, again with dense sequential indices; every hat
assignment derives its index from the position within the hat sub-range (two
raw codes per hat); and two runs over extensionally equal bit-fields yield
identical assignments. -/
theorem enumerate_assignments_spec (keybits absbits keybits' absbits' : Nat → Bool)
    (hk : ∀ i, keybits i = keybits' i) (ha : ∀ i, absbits i = absbits' i) :
    (btnAssign keybits).map Prod.fst = btnScanOrder.filter keybits ∧
    (btnAssign keybits).map Prod.snd = List.range (btnScanOrder.filter keybits).length ∧
    (absAssign absbits).map Prod.fst =
      axisScanOrder.filter (fun i => absbits i && !isHatCode i) ∧
    (absAssign absbits).map Prod.snd =
      List.range (axisScanOrder.filter (fun i => absbits i && !isHatCode i)).length ∧
    (∀ p ∈ hatAssign absbits,
      p.2 = (p.1 - 16) / 2 ∧ 16 ≤ p.1 ∧ p.1 ≤ 23 ∧ absbits p.1 = true) ∧
    btnAssign keybits = btnAssign keybits' ∧
    absAssign absbits = absAssign absbits' ∧
    hatAssign absbits = hatAssign absbits' := by
  have hkf : keybits = keybits' := funext hk
  have haf : absbits = absbits' := funext ha
  subst hkf haf
  refine ⟨assignSeq_fst _ _, assignSeq_snd _ _, assignSeq_fst _ _, assignSeq_snd _ _,
    ?_, rfl, rfl, rfl⟩
  intro p hp
  unfold hatAssign at hp
  rw [List.mem_map] at hp
  obtain ⟨i, hi, rfl⟩ := hp
  rw [List.mem_filter] at hi
  have hhat := hi.2
  simp only [Bool.and_eq_true, isHatCode, decide_eq_true_eq] at hhat
  exact ⟨rfl, by simpa using hhat.2.1, by simpa using hhat.2.2, hhat.1⟩

/-- C4 witness: a pad with one gamepad button (0x130), axes X, Y and the
first hat pair (codes 16 and 17). -/
theorem enumerate_assignments_spec_witness :
    ((btnAssign (fun i => i == 304)).map Prod.fst =
        btnScanOrder.filter (fun i => i == 304) ∧
      (btnAssign (fun i => i == 304)).map Prod.snd =
        List.range (btnScanOrder.filter (fun i => i == 304)).length ∧
      (absAssign (fun i => i ≤ 1 || i == 16 || i == 17)).map Prod.fst =
        axisScanOrder.filter (fun i => (i ≤ 1 || i == 16 || i == 17) && !isHatCode i) ∧
      (absAssign (fun i => i ≤ 1 || i == 16 || i == 17)).map Prod.snd =
        List.range (axisScanOrder.filter
          (fun i => (i ≤ 1 || i == 16 || i == 17) && !isHatCode i)).length ∧
      (∀ p ∈ hatAssign (fun i => i ≤ 1 || i == 16 || i == 17),
        p.2 = (p.1 - 16) / 2 ∧ 16 ≤ p.1 ∧ p.1 ≤ 23 ∧
          (p.1 ≤ 1 || p.1 == 16 || p.1 == 17) = true) ∧
      btnAssign (fun i => i == 304) = btnAssign (fun i => i == 304) ∧
      absAssign (fun i => i ≤ 1 || i == 16 || i == 17) =
        absAssign (fun i => i ≤ 1 || i == 16 || i == 17) ∧
      hatAssign (fun i => i ≤ 1 || i == 16 || i == 17) =
        hatAssign (fun i => i ≤ 1 || i == 16 || i == 17)) :=
  enumerate_assignments_spec (fun i => i == 304) (fun i => i ≤ 1 || i == 16 || i == 17)
    (fun i => i == 304) (fun i => i ≤ 1 || i == 16 || i == 17)
    (fun _ => rfl) (fun _ => rfl)

/- ================================================================
   Mapping-input capture: `poll_mapping_input` (gamepad_map.c:1115-1158).
   The evdev stream is a list of events; per-axis data comes from the
   `Controller` arrays filled by `enumerate_buttons_axes` (modelled as
   functions; `-1` sentinels in `btn_map`/`abs_map` become `Option`).
   ================================================================ -/

structure InputEvent where
  type : Nat
  code : Nat
  value : Int
deriving DecidableEq, Repr

structure Ctrl where
  guid : String
  name : String
  btnMap : Nat → Option Nat
  absMap : Nat → Option Nat
  hatMap : Nat → Option Nat
  axisMin : Nat → Int
  axisMax : Nat → Int
  axisInl : Nat → Int

inductive Capture
  | button (idx : Nat)
  | axis (idx : Nat)
  | hat (idx : Nat) (mask : Nat)
deriving DecidableEq, Repr

/-- The axis deflection threshold of the source:
`int thresh = range > 0 ? range * 2 / 5 : 1;` with `range = axis_max - axis_min`
(the same expression appears in `poll_mapping_input` and `read_nav_input`).
The operands of `/` are nonnegative here, so Lean division agrees with C
division. -/
def axisThresh (amin amax : Int) : Int :=
  if amax - amin > 0 then (amax - amin) * 2 / 5 else 1

/-- Modelled from the spec: "threshold = 40% of the half-range
`(maximum−minimum)/2`, floor of 1 if the range collapses to zero".
Defined only to compare against `axisThresh`. -/
def specAxisThresh (amin amax : Int) : Int :=
  if amax - amin > 0 then (amax - amin) / 2 * 2 / 5 else 1

/-- The hat direction mask of the capture branch: X-position codes (even
offset from ABS_HAT0X) give L=8 / R=2 by sign, Y-position codes give
U=1 / D=4 by sign. -/
def hatMaskOf (code : Nat) (value : Int) : Nat :=
  if (code - 16) % 2 = 0 then (if value < 0 then 8 else 2)
  else (if value < 0 then 1 else 4)

/-- `poll_mapping_input`: scan queued events, return the first capture.
EV_KEY = 1 presses map through `btn_map`; EV_ABS = 3 events in the hat
sub-range with non-zero value capture a hat; other EV_ABS events capture an
axis when the deflection from the initial sample exceeds the threshold. -/
def pollMappingInput (c : Ctrl) : List InputEvent → Option Capture
  | [] => none
  | ev :: rest =>
    if ev.type = 1 ∧ ev.value = 1 then
      match c.btnMap ev.code with
      | some idx => some (.button idx)
      | none => pollMappingInput c rest
    else if ev.type = 3 then
      if 16 ≤ ev.code ∧ ev.code ≤ 23 ∧ ev.value ≠ 0 then
        some (.hat ((ev.code - 16) / 2) (hatMaskOf ev.code ev.value))
      else
        match c.absMap ev.code with
        | some aidx =>
          if ev.value - c.axisInl ev.code > axisThresh (c.axisMin ev.code) (c.axisMax ev.code) ∨
              ev.value - c.axisInl ev.code <
                -axisThresh (c.axisMin ev.code) (c.axisMax ev.code) then
            some (.axis aidx)
          else pollMappingInput c rest
        | none => pollMappingInput c rest
    else pollMappingInput c rest

/-- A controller exposing one plain axis with declared range [0,255] and
initial (midpoint) sample 127 -- the geometry of THEC64 joystick's own axes. -/
def oneAxisCtrl : Ctrl where
  guid := ""
  name := ""
  btnMap := fun _ => none
  absMap := fun code => if code = 0 then some 0 else none
  hatMap := fun _ => none
  axisMin := fun _ => 0
  axisMax := fun _ => 255
  axisInl := fun _ => 127

/-- C2 (code bug): the source's own comment ("Use 40% of half-range as
threshold") and the hard-coded THEC64 path (`thresh = 50` for half-range 127,
gamepad_map.c:734) both describe a threshold of 40% of the half-range, which
for range [0,255] is 50; the claim says the same.  But the computed
expression `range * 2 / 5` is 40% of the FULL range: 102 for [0,255].  A
sample of 200 on such an axis (deflection 73 from the initial 127) is a
directional deflection under the claim's threshold yet produces no capture
in the code. -/
theorem axis_threshold_code_divergence :
    axisThresh 0 255 = 102 ∧
    specAxisThresh 0 255 = 50 ∧
    ((200 : Int) - 127 > specAxisThresh 0 255 ∧ ¬((200 : Int) - 127 > axisThresh 0 255)) ∧
    pollMappingInput oneAxisCtrl [⟨3, 0, 200⟩] = none := by decide

/-- A controller with no buttons and no plain axes, used to exercise the hat
branch in isolation. -/
def bareCtrl : Ctrl where
  guid := ""
  name := ""
  btnMap := fun _ => none
  absMap := fun _ => none
  hatMap := fun _ => none
  axisMin := fun _ => 0
  axisMax := fun _ => 0
  axisInl := fun _ => 0

/-- C5: a hat axis event (EV_ABS code in `ABS_HAT0X..ABS_HAT3Y`) with
non-zero value always captures a hat whose index is the position within the
hat sub-range (two raw codes per hat), and whose direction mask is exactly
one of Up=1, Down=4, Left=8, Right=2: X-position codes (even offset) give
Left/Right by sign, Y-position codes (odd offset) give Up/Down by sign. -/
theorem hat_capture_mask_spec (c : Ctrl) (code : Nat) (value : Int)
    (h1 : 16 ≤ code) (h2 : code ≤ 23) (h3 : value ≠ 0) :
    ∃ m, pollMappingInput c [⟨3, code, value⟩] = some (.hat ((code - 16) / 2) m) ∧
      (m = 1 ∨ m = 2 ∨ m = 4 ∨ m = 8) ∧
      ((code - 16) % 2 = 0 → (value < 0 → m = 8) ∧ (0 < value → m = 2)) ∧
      ((code - 16) % 2 = 1 → (value < 0 → m = 1) ∧ (0 < value → m = 4)) := by
  refine ⟨hatMaskOf code value, ?_, ?_, ?_, ?_⟩
  · show (if (3 : Nat) = 1 ∧ (value = 1) then _ else _) = _
    rw [if_neg (by simp), if_pos rfl, if_pos ⟨h1, h2, h3⟩]
  · unfold hatMaskOf
    split <;> split <;> simp
  · intro hpar
    unfold hatMaskOf
    rw [if_pos hpar]
    constructor
    · intro hv; rw [if_pos hv]
    · intro hv; rw [if_neg (by omega)]
  · intro hpar
    unfold hatMaskOf
    rw [if_neg (by omega)]
    constructor
    · intro hv; rw [if_pos hv]
    · intro hv; rw [if_neg (by omega)]

/-- C5 witness: ABS_HAT0X pushed negative (left). -/
theorem hat_capture_mask_spec_witness :
    ∃ m, pollMappingInput bareCtrl [⟨3, 16, -1⟩] =
        some (Capture.hat ((16 - 16) / 2) m) ∧
      (m = 1 ∨ m = 2 ∨ m = 4 ∨ m = 8) ∧
      ((16 - 16) % 2 = 0 → ((-1 : Int) < 0 → m = 8) ∧ ((0 : Int) < -1 → m = 2)) ∧
      ((16 - 16) % 2 = 1 → ((-1 : Int) < 0 → m = 1) ∧ ((0 : Int) < -1 → m = 4)) :=
  hat_capture_mask_spec bareCtrl 16 (-1) (by decide) (by decide) (by decide)

/- ================================================================
   Mapping table and mapping-string serialization:
   `MappingEntry`, `init_mappings` (gamepad_map.c:216-224, 824-846) and
   `build_mapping_string` (gamepad_map.c:852-880).
   The 1024-byte output buffer is never approached (GUID 32 + name
   <= 255 + ten channels of at most ~25 bytes + tail), so the snprintf
   appends are embedded as plain string concatenation.
   ================================================================ -/

inductive MapType
  | unmapped | button | axis | hat
deriving DecidableEq, Repr

structure MappingEntry where
  gcdbName : String
  mappedType : MapType
  mappedIndex : Nat
  hatMask : Nat
deriving DecidableEq, Repr

instance : Inhabited MappingEntry := ⟨⟨"", .unmapped, 0, 0⟩⟩

/-- The `switch (m->mapped_type)` of `build_mapping_string`: `b%d` for a
button, `a%d` for an axis, `h%d.%d` for a hat, nothing for `MAP_NONE`. -/
def mapCode (m : MappingEntry) : String :=
  match m.mappedType with
  | .button => "b" ++ toString m.mappedIndex
  | .axis => "a" ++ toString m.mappedIndex
  | .hat => "h" ++ toString m.mappedIndex ++ "." ++ toString m.hatMask
  | .unmapped => ""

/-- `build_mapping_string`: successive snprintf appends into the output
buffer -- `"%s,%s,"` with GUID and name, then `"%s:"`, the code and `","`
per mapping entry, then `"platform:Linux,"`. -/
def build_mapping_string (guid name : String) (ms : List MappingEntry) : String :=
  (ms.foldl (fun acc m => acc ++ (m.gcdbName ++ ":" ++ mapCode m ++ ","))
    (guid ++ "," ++ name ++ ",")) ++ "platform:Linux,"

/-- Concatenation of a list of strings (used to state the spec-side shape of
the serialized line). -/
def concatAll : List String → String
  | [] => ""
  | s :: t => s ++ concatAll t

theorem foldl_append_eq_concatAll (f : MappingEntry → String) (ms : List MappingEntry)
    (init : String) :
    ms.foldl (fun acc m => acc ++ f m) init = init ++ concatAll (ms.map f) := by
  induction ms generalizing init with
  | nil => simp [concatAll, String.append_empty]
  | cons m t ih =>
    simp only [List.foldl_cons, List.map_cons, concatAll, ih, String.append_assoc]

/-- C3: the serialized mapping line is exactly
`GUID,Name,<channel>:<code>,<channel>:<code>,...,platform:Linux,` where the
per-channel code is `b<index>` for a button binding, `a<index>` for an axis
binding, `h<index>.<mask>` for a hat binding, and empty for an unbound
channel (whose name and trailing colon are still emitted); and rebuilding
from the same bindings yields byte-identical output. -/
theorem build_mapping_string_format (guid name : String) (ms ms' : List MappingEntry)
    (hms : ms = ms') :
    build_mapping_string guid name ms =
      guid ++ "," ++ name ++ "," ++
        concatAll (ms.map fun m => m.gcdbName ++ ":" ++ mapCode m ++ ",") ++
        "platform:Linux," ∧
    (∀ g i h, mapCode ⟨g, MapType.button, i, h⟩ = "b" ++ toString i) ∧
    (∀ g i h, mapCode ⟨g, MapType.axis, i, h⟩ = "a" ++ toString i) ∧
    (∀ g i h, mapCode ⟨g, MapType.hat, i, h⟩ = "h" ++ toString i ++ "." ++ toString h) ∧
    (∀ g i h, mapCode ⟨g, MapType.unmapped, i, h⟩ = "") ∧
    build_mapping_string guid name ms = build_mapping_string guid name ms' := by
  subst hms
  refine ⟨?_, fun _ _ _ => rfl, fun _ _ _ => rfl, fun _ _ _ => rfl, fun _ _ _ => rfl, rfl⟩
  unfold build_mapping_string
  rw [foldl_append_eq_concatAll]

/-- The ten channel entries set up by `init_mappings` (gcdb names in order;
prompts and labels are render-only and omitted). -/
def initMappings : List MappingEntry :=
  [⟨"lefttrigger", .unmapped, 0, 0⟩, ⟨"righttrigger", .unmapped, 0, 0⟩,
   ⟨"x", .unmapped, 0, 0⟩, ⟨"y", .unmapped, 0, 0⟩,
   ⟨"a", .unmapped, 0, 0⟩, ⟨"b", .unmapped, 0, 0⟩,
   ⟨"back", .unmapped, 0, 0⟩, ⟨"start", .unmapped, 0, 0⟩,
   ⟨"leftx", .unmapped, 0, 0⟩, ⟨"lefty", .unmapped, 0, 0⟩]

/-- C3 witness: ten channels, all still unbound, on a zero-identity pad. -/
theorem build_mapping_string_format_witness :
    build_mapping_string (build_guid 3 0 0 0) "Pad" initMappings =
      build_guid 3 0 0 0 ++ "," ++ "Pad" ++ "," ++
        concatAll (initMappings.map fun m => m.gcdbName ++ ":" ++ mapCode m ++ ",") ++
        "platform:Linux," ∧
    (∀ g i h, mapCode ⟨g, MapType.button, i, h⟩ = "b" ++ toString i) ∧
    (∀ g i h, mapCode ⟨g, MapType.axis, i, h⟩ = "a" ++ toString i) ∧
    (∀ g i h, mapCode ⟨g, MapType.hat, i, h⟩ = "h" ++ toString i ++ "." ++ toString h) ∧
    (∀ g i h, mapCode ⟨g, MapType.unmapped, i, h⟩ = "") ∧
    build_mapping_string (build_guid 3 0 0 0) "Pad" initMappings =
      build_mapping_string (build_guid 3 0 0 0) "Pad" initMappings :=
  build_mapping_string_format (build_guid 3 0 0 0) "Pad" initMappings initMappings rfl

/- ================================================================
   Session state machine: the `App` fields the claims touch, with
   `review_redo_selected` (gamepad_map.c:1313-1323), `update_mapping`
   (gamepad_map.c:1226-1249) and the export-confirm branch of
   `update_browse` (gamepad_map.c:1650-1670).
   Input draining, debounce sleeps and rendering are I/O without state
   effect and are omitted; the filesystem write is recorded in `written`
   and `fopen` success is an oracle `canOpen`.
   ================================================================ -/

inductive AppState
  | detect | mapping | review | browse | finished | exitApp
deriving DecidableEq, Repr

structure Browser where
  path : String
  entries : List (String × Bool)
  selected : Int
  scroll : Int
deriving DecidableEq, Repr

structure Session where
  state : AppState
  mappings : List MappingEntry
  curMap : Nat
  redoSingle : Int
  reviewSel : Int
  savePath : String
  mappingStr : String
  browser : Browser
  written : List (String × String)
deriving DecidableEq, Repr

/-- `app->mappings[cur_map].mapped_type = MAP_NONE` clears only the type. -/
def clearMapped (e : MappingEntry) : MappingEntry := { e with mappedType := .unmapped }

/-- `review_redo_selected`: on a channel row, set the redo flag, point
`cur_map` at the row, clear its binding and re-enter MAPPING. -/
def review_redo_selected (s : Session) : Session :=
  if (0 : Int) ≤ s.reviewSel ∧ s.reviewSel < 10 then
    let cleared := clearMapped (s.mappings.getD s.reviewSel.toNat default)
    { s with redoSingle := s.reviewSel,
             curMap := s.reviewSel.toNat,
             mappings := s.mappings.set s.reviewSel.toNat cleared,
             state := .mapping }
  else s

/-- How `poll_mapping_input` writes the captured binding into the entry it
was handed (a button/axis capture leaves the stale `hat_mask` in place, as
the C struct update does). -/
def applyCapture (e : MappingEntry) : Capture → MappingEntry
  | .button i => { e with mappedType := .button, mappedIndex := i }
  | .axis i => { e with mappedType := .axis, mappedIndex := i }
  | .hat i m => { e with mappedType := .hat, mappedIndex := i, hatMask := m }

/-- `update_mapping`: on a successful capture, store it in the current
entry; if a single redo was pending, drop the flag and return to REVIEW;
otherwise advance, and after the tenth capture enter REVIEW and build the
mapping string. -/
def update_mapping (c : Ctrl) (evs : List InputEvent) (s : Session) : Session :=
  match pollMappingInput c evs with
  | none => s
  | some cap =>
    let e1 := applyCapture (s.mappings.getD s.curMap default) cap
    let s1 := { s with mappings := s.mappings.set s.curMap e1 }
    if (0 : Int) ≤ s1.redoSingle then
      { s1 with redoSingle := -1, state := .review }
    else
      let cm := s1.curMap + 1
      if 10 ≤ cm then
        { s1 with curMap := cm, state := .review, reviewSel := 0,
                  mappingStr := build_mapping_string c.guid c.name s1.mappings }
      else { s1 with curMap := cm }

/-- C string truncation `%.Ns` of snprintf. -/
def strTrunc (s : String) (n : Nat) : String := ⟨s.data.take n⟩

theorem strTrunc_of_le (s : String) (n : Nat) (h : s.length ≤ n) : strTrunc s n = s := by
  unfold strTrunc
  rw [List.take_of_length_le h]

/-- The destination path built by the export branch:
`"/%.32s.txt"` at the root, `"%.470s/%.32s.txt"` elsewhere. -/
def exportFilePath (dirPath guid : String) : String :=
  if dirPath = "/" then "/" ++ strTrunc guid 32 ++ ".txt"
  else strTrunc dirPath 470 ++ "/" ++ strTrunc guid 32 ++ ".txt"

/-- The `else if (!e->is_dir)` confirm branch of `update_browse`: rebuild the
mapping string, try to open `<dir>/<GUID>.txt` for writing; on success write
the line, record the save path and go to REVIEW; on failure fall through
with nothing recorded. -/
def update_browse_export (canOpen : String → Bool) (c : Ctrl) (s : Session) : Session :=
  let str := build_mapping_string c.guid c.name s.mappings
  let fp := exportFilePath s.browser.path c.guid
  let s1 := { s with mappingStr := str }
  if canOpen fp then
    { s1 with written := s1.written ++ [(fp, str ++ "\n")],
              savePath := fp, state := .review }
  else s1

theorem getD_set_eq {α : Type} (l : List α) (i : Nat) (a d : α) (h : i < l.length) :
    (l.set i a).getD i d = a := by
  rw [List.getD_eq_getElem?_getD, List.getElem?_set, if_pos rfl, if_pos h, Option.getD_some]

theorem getD_set_of_ne {α : Type} (l : List α) (i j : Nat) (a d : α) (h : i ≠ j) :
    (l.set i a).getD j d = l.getD j d := by
  rw [List.getD_eq_getElem?_getD, List.getElem?_set_ne h, ← List.getD_eq_getElem?_getD]

theorem review_redo_selected_eq (s : Session)
    (h0 : (0 : Int) ≤ s.reviewSel) (h10 : s.reviewSel < 10) :
    review_redo_selected s =
      { s with redoSingle := s.reviewSel,
               curMap := s.reviewSel.toNat,
               mappings := s.mappings.set s.reviewSel.toNat
                 (clearMapped (s.mappings.getD s.reviewSel.toNat default)),
               state := .mapping } := by
  unfold review_redo_selected
  exact if_pos ⟨h0, h10⟩

theorem update_mapping_redo (c : Ctrl) (evs : List InputEvent) (s : Session) (cap : Capture)
    (hcap : pollMappingInput c evs = some cap) (hredo : (0 : Int) ≤ s.redoSingle) :
    update_mapping c evs s =
      { s with mappings := s.mappings.set s.curMap
                 (applyCapture (s.mappings.getD s.curMap default) cap),
               redoSingle := -1,
               state := .review } := by
  unfold update_mapping
  rw [hcap]
  exact if_pos hredo

/-- C6: from REVIEW with all ten channels bound, redoing the selected
channel -- which clears that channel's binding, sets the redo flag and
re-enters MAPPING -- followed by one successful capture changes only that
channel's entry, drops the redo flag and returns to REVIEW; the other nine
entries, and hence their serialized codes, are bit-identical. -/
theorem review_redo_single_channel (c : Ctrl) (evs : List InputEvent) (s : Session)
    (_hstate : s.state = .review)
    (hlen : s.mappings.length = 10)
    (h0 : (0 : Int) ≤ s.reviewSel) (h10 : s.reviewSel < 10)
    (_hbound : ∀ e ∈ s.mappings, e.mappedType ≠ .unmapped)
    (cap : Capture) (hcap : pollMappingInput c evs = some cap) :
    (review_redo_selected s).state = .mapping ∧
    (review_redo_selected s).redoSingle = s.reviewSel ∧
    ((review_redo_selected s).mappings.getD s.reviewSel.toNat default).mappedType
      = .unmapped ∧
    (update_mapping c evs (review_redo_selected s)).state = .review ∧
    (update_mapping c evs (review_redo_selected s)).redoSingle = -1 ∧
    (update_mapping c evs (review_redo_selected s)).mappings.length = 10 ∧
    (update_mapping c evs (review_redo_selected s)).mappings.getD s.reviewSel.toNat default
      = applyCapture (clearMapped (s.mappings.getD s.reviewSel.toNat default)) cap ∧
    (∀ j, j < 10 → j ≠ s.reviewSel.toNat →
      (update_mapping c evs (review_redo_selected s)).mappings.getD j default
        = s.mappings.getD j default) ∧
    (∀ j, j < 10 → j ≠ s.reviewSel.toNat →
      mapCode ((update_mapping c evs (review_redo_selected s)).mappings.getD j default)
        = mapCode (s.mappings.getD j default)) := by
  have hklen : s.reviewSel.toNat < s.mappings.length := by omega
  have hred := review_redo_selected_eq s h0 h10
  have hupd := update_mapping_redo c evs (review_redo_selected s) cap hcap
    (by rw [hred]; exact h0)
  rw [hred] at hupd
  dsimp only at hupd
  rw [hred, hupd]
  dsimp only
  rw [getD_set_eq _ _ _ _ hklen, List.set_set]
  refine ⟨rfl, rfl, ?_, rfl, rfl, ?_, ?_, ?_, ?_⟩
  · rfl
  · rw [List.length_set]
    exact hlen
  · rw [getD_set_eq _ _ _ _ hklen]
  · intro j hj hjk
    rw [getD_set_of_ne _ _ _ _ _ (fun h => hjk h.symm)]
  · intro j hj hjk
    rw [getD_set_of_ne _ _ _ _ _ (fun h => hjk h.symm)]

/-- A controller whose only control is a joystick button on code 0x120 = 288
(enumerated as button 0). -/
def oneBtnCtrl : Ctrl where
  guid := ""
  name := ""
  btnMap := fun code => if code = 288 then some 0 else none
  absMap := fun _ => none
  hatMap := fun _ => none
  axisMin := fun _ => 0
  axisMax := fun _ => 0
  axisInl := fun _ => 0

/-- Ten channels, all bound (the state after a completed MAPPING pass). -/
def boundMappings : List MappingEntry :=
  [⟨"lefttrigger", .button, 0, 0⟩, ⟨"righttrigger", .button, 1, 0⟩,
   ⟨"x", .button, 2, 0⟩, ⟨"y", .button, 3, 0⟩,
   ⟨"a", .button, 4, 0⟩, ⟨"b", .button, 5, 0⟩,
   ⟨"back", .button, 6, 0⟩, ⟨"start", .button, 7, 0⟩,
   ⟨"leftx", .axis, 0, 0⟩, ⟨"lefty", .axis, 1, 0⟩]

/-- A REVIEW-state session with all channels bound and the first row selected. -/
def demoSession : Session where
  state := .review
  mappings := boundMappings
  curMap := 10
  redoSingle := -1
  reviewSel := 0
  savePath := ""
  mappingStr := ""
  browser := ⟨"/mnt", [(">> Export here <<", false)], 0, 0⟩
  written := []

/-- C6 witness: redo row 0 on the demo session, then capture button 288. -/
theorem review_redo_single_channel_witness :
    (review_redo_selected demoSession).state = AppState.mapping ∧
    (review_redo_selected demoSession).redoSingle = demoSession.reviewSel ∧
    ((review_redo_selected demoSession).mappings.getD
        demoSession.reviewSel.toNat default).mappedType = MapType.unmapped ∧
    (update_mapping oneBtnCtrl [⟨1, 288, 1⟩]
        (review_redo_selected demoSession)).state = AppState.review ∧
    (update_mapping oneBtnCtrl [⟨1, 288, 1⟩]
        (review_redo_selected demoSession)).redoSingle = -1 ∧
    (update_mapping oneBtnCtrl [⟨1, 288, 1⟩]
        (review_redo_selected demoSession)).mappings.length = 10 ∧
    (update_mapping oneBtnCtrl [⟨1, 288, 1⟩]
        (review_redo_selected demoSession)).mappings.getD
        demoSession.reviewSel.toNat default
      = applyCapture
          (clearMapped (demoSession.mappings.getD demoSession.reviewSel.toNat default))
          (Capture.button 0) ∧
    (∀ j, j < 10 → j ≠ demoSession.reviewSel.toNat →
      (update_mapping oneBtnCtrl [⟨1, 288, 1⟩]
          (review_redo_selected demoSession)).mappings.getD j default
        = demoSession.mappings.getD j default) ∧
    (∀ j, j < 10 → j ≠ demoSession.reviewSel.toNat →
      mapCode ((update_mapping oneBtnCtrl [⟨1, 288, 1⟩]
          (review_redo_selected demoSession)).mappings.getD j default)
        = mapCode (demoSession.mappings.getD j default)) :=
  review_redo_single_channel oneBtnCtrl [⟨1, 288, 1⟩] demoSession rfl (by decide)
    (by decide) (by decide) (by decide) (Capture.button 0) (by decide)

/-- C7: in BROWSE, confirming the export action targets
`<chosen directory>/<GUID>.txt`; when the file opens, the mapping line is
written there, the save path is recorded and the state becomes REVIEW; when
it cannot be opened, no save path is recorded and bindings, state and
browser position are all left unchanged (and nothing is written). -/
theorem browse_export_save (canOpen : String → Bool) (c : Ctrl) (s : Session)
    (_hstate : s.state = .browse)
    (hguid : c.guid.length = 32)
    (hpath : s.browser.path.length ≤ 470)
    (hroot : s.browser.path ≠ "/") :
    exportFilePath s.browser.path c.guid = s.browser.path ++ "/" ++ c.guid ++ ".txt" ∧
    (canOpen (exportFilePath s.browser.path c.guid) = true →
      (update_browse_export canOpen c s).state = .review ∧
      (update_browse_export canOpen c s).savePath = exportFilePath s.browser.path c.guid ∧
      (update_browse_export canOpen c s).written =
        s.written ++ [(exportFilePath s.browser.path c.guid,
          build_mapping_string c.guid c.name s.mappings ++ "\n")]) ∧
    (canOpen (exportFilePath s.browser.path c.guid) = false →
      (update_browse_export canOpen c s).savePath = s.savePath ∧
      (update_browse_export canOpen c s).state = s.state ∧
      (update_browse_export canOpen c s).mappings = s.mappings ∧
      (update_browse_export canOpen c s).browser = s.browser ∧
      (update_browse_export canOpen c s).written = s.written) := by
  have hfp : exportFilePath s.browser.path c.guid =
      s.browser.path ++ "/" ++ c.guid ++ ".txt" := by
    unfold exportFilePath
    rw [if_neg hroot, strTrunc_of_le _ _ hpath, strTrunc_of_le _ _ (le_of_eq hguid)]
  refine ⟨hfp, ?_, ?_⟩
  · intro hopen
    unfold update_browse_export
    dsimp only
    rw [hopen]
    exact ⟨rfl, rfl, rfl⟩
  · intro hopen
    unfold update_browse_export
    dsimp only
    rw [hopen]
    exact ⟨rfl, rfl, rfl, rfl, rfl⟩

/-- A browse-state session over `/mnt` with all channels bound. -/
def browseSession : Session := { demoSession with state := .browse }

/-- A controller with a full-length GUID for the export path. -/
def exportCtrl : Ctrl := { oneBtnCtrl with guid := build_guid 3 0 0 0, name := "Pad" }

/-- C7 witness: export from `/mnt` with a filesystem that accepts the write. -/
theorem browse_export_save_witness :
    exportFilePath browseSession.browser.path exportCtrl.guid =
      browseSession.browser.path ++ "/" ++ exportCtrl.guid ++ ".txt" ∧
    ((fun (_ : String) => true) (exportFilePath browseSession.browser.path
        exportCtrl.guid) = true →
      (update_browse_export (fun _ => true) exportCtrl browseSession).state =
        AppState.review ∧
      (update_browse_export (fun _ => true) exportCtrl browseSession).savePath =
        exportFilePath browseSession.browser.path exportCtrl.guid ∧
      (update_browse_export (fun _ => true) exportCtrl browseSession).written =
        browseSession.written ++ [(exportFilePath browseSession.browser.path
            exportCtrl.guid,
          build_mapping_string exportCtrl.guid exportCtrl.name browseSession.mappings
            ++ "\n")]) ∧
    ((fun (_ : String) => true) (exportFilePath browseSession.browser.path
        exportCtrl.guid) = false →
      (update_browse_export (fun _ => true) exportCtrl browseSession).savePath =
        browseSession.savePath ∧
      (update_browse_export (fun _ => true) exportCtrl browseSession).state =
        browseSession.state ∧
      (update_browse_export (fun _ => true) exportCtrl browseSession).mappings =
        browseSession.mappings ∧
      (update_browse_export (fun _ => true) exportCtrl browseSession).browser =
        browseSession.browser ∧
      (update_browse_export (fun _ => true) exportCtrl browseSession).written =
        browseSession.written) :=
  browse_export_save (fun _ => true) exportCtrl browseSession rfl (by decide)
    (by decide) (by decide)

/- ================================================================
   The standalone identity tool (`main` in gamepad_guid.c:120-178) and
   the registry scan (`scan_controllers`, gamepad_map.c:613-655).
   A `/dev/input` directory entry together with the ioctl responses the
   device would give is a `Dev`; `open`/`EVIOCGID`/`EVIOCGNAME` outcomes
   are the `openOk`/`idOk`/`nameOk` flags.
   ================================================================ -/

structure Dev where
  entName : String
  openOk : Bool
  evbits : Nat → Bool
  absbits : Nat → Bool
  keybits : Nat → Bool
  idOk : Bool
  bustype : Nat
  vendor : Nat
  product : Nat
  version : Nat
  nameOk : Bool
  devName : String

/-- One iteration of the scan loop of gamepad_guid.c `main`: skip names of
length <= 5, skip names not starting with "event", skip failed opens,
non-gamepads and failed `EVIOCGID`; otherwise print
`printf("%s,%s,%s\n", guid_str, name, path)` (name falls back to
"Unknown" when `EVIOCGNAME` fails). -/
def devDetectLine (d : Dev) : Option String :=
  if d.entName.length ≤ 5 then none
  else if d.entName.data.take 5 ≠ "event".data then none
  else if !d.openOk then none
  else if !(is_gamepad d.evbits d.absbits d.keybits) then none
  else if !d.idOk then none
  else some (build_guid d.bustype d.vendor d.product d.version ++ "," ++
    (if d.nameOk then d.devName else "Unknown") ++ "," ++ ("/dev/input/" ++ d.entName))

/-- The readdir loop of `main` with its `found` counter: the printed lines
in order, and the final value of `found`. -/
def guidLoop : List Dev → List String × Nat
  | [] => ([], 0)
  | d :: rest =>
    match devDetectLine d with
    | some line => (line :: (guidLoop rest).1, (guidLoop rest).2 + 1)
    | none => guidLoop rest

/-- Everything gamepad_guid.c `main` prints to stdout:
the per-gamepad lines, then `"No game controllers found."` iff `found == 0`. -/
def guidToolOutput (devs : List Dev) : List String :=
  if (guidLoop devs).2 = 0 then (guidLoop devs).1 ++ ["No game controllers found."]
  else (guidLoop devs).1

theorem guidLoop_eq (devs : List Dev) :
    guidLoop devs = (devs.filterMap devDetectLine, (devs.filterMap devDetectLine).length) := by
  induction devs with
  | nil => rfl
  | cons d rest ih =>
    cases hd : devDetectLine d with
    | some line =>
      rw [guidLoop, hd, ih, List.filterMap_cons_some hd]
      rfl
    | none =>
      rw [guidLoop, hd, ih, List.filterMap_cons_none hd]

theorem devDetectLine_comma (d : Dev) (l : String) (h : devDetectLine d = some l) :
    ',' ∈ l.data := by
  unfold devDetectLine at h
  by_cases c1 : d.entName.length ≤ 5
  · rw [if_pos c1] at h; exact absurd h (by simp)
  rw [if_neg c1] at h
  by_cases c2 : d.entName.data.take 5 ≠ "event".data
  · rw [if_pos c2] at h; exact absurd h (by simp)
  rw [if_neg c2] at h
  by_cases c3 : (!d.openOk) = true
  · rw [if_pos c3] at h; exact absurd h (by simp)
  rw [if_neg c3] at h
  by_cases c4 : (!is_gamepad d.evbits d.absbits d.keybits) = true
  · rw [if_pos c4] at h; exact absurd h (by simp)
  rw [if_neg c4] at h
  by_cases c5 : (!d.idOk) = true
  · rw [if_pos c5] at h; exact absurd h (by simp)
  rw [if_neg c5, Option.some.injEq] at h
  subst h
  rw [String.data_append, String.data_append, String.data_append, String.data_append]
  have hc : ',' ∈ (",").data := by decide
  simp only [List.mem_append]
  tauto

/-- C9: the identity tool prints exactly one `GUID,Name,Path` line per
detected gamepad, in scan order, and prints the fixed message
`"No game controllers found."` exactly when zero gamepads were detected in
the scan. -/
theorem guid_tool_output_spec (devs : List Dev) :
    guidToolOutput devs =
      devs.filterMap devDetectLine ++
        (if devs.filterMap devDetectLine = [] then ["No game controllers found."]
         else []) ∧
    (guidLoop devs).2 = (devs.filterMap devDetectLine).length ∧
    ("No game controllers found." ∈ guidToolOutput devs ↔
      devs.filterMap devDetectLine = []) := by
  have hloop := guidLoop_eq devs
  have hchar : ∀ l ∈ devs.filterMap devDetectLine, ',' ∈ l.data := by
    intro l hl
    rw [List.mem_filterMap] at hl
    obtain ⟨d, _, hd⟩ := hl
    exact devDetectLine_comma d l hd
  have hmsg : ¬ (',' ∈ ("No game controllers found.").data) := by decide
  refine ⟨?_, ?_, ?_⟩
  · unfold guidToolOutput
    rw [hloop]
    dsimp only
    by_cases hempty : devs.filterMap devDetectLine = []
    · rw [if_pos (by rw [hempty]; rfl), if_pos hempty]
    · rw [if_neg (fun hz => hempty (List.length_eq_zero.mp hz)), if_neg hempty,
        List.append_nil]
  · rw [hloop]
  · unfold guidToolOutput
    rw [hloop]
    dsimp only
    by_cases hempty : devs.filterMap devDetectLine = []
    · rw [if_pos (by rw [hempty]; rfl), hempty]
      simp
    · rw [if_neg (fun hz => hempty (List.length_eq_zero.mp hz))]
      constructor
      · intro hmem
        exact absurd (hchar _ hmem) hmsg
      · intro h
        exact absurd h hempty

/-- The `Controller` record fields `scan_controllers` fills in
(the open fd is I/O and omitted; the enumeration arrays appear as their
assignment lists). -/
structure CtrlRec where
  path : String
  name : String
  guid : String
  btnPairs : List (Nat × Nat)
  absPairs : List (Nat × Nat)
  hatPairs : List (Nat × Nat)

/-- One iteration of the `scan_controllers` loop for one directory entry,
with the same filter chain as the identity tool (the name fallback here is
"Unknown Controller") followed by `build_guid` and `enumerate_buttons_axes`. -/
def scanDev (d : Dev) : Option CtrlRec :=
  if d.entName.length ≤ 5 then none
  else if d.entName.data.take 5 ≠ "event".data then none
  else if !d.openOk then none
  else if !(is_gamepad d.evbits d.absbits d.keybits) then none
  else if !d.idOk then none
  else some { path := "/dev/input/" ++ d.entName,
              name := if d.nameOk then d.devName else "Unknown Controller",
              guid := build_guid d.bustype d.vendor d.product d.version,
              btnPairs := btnAssign d.keybits,
              absPairs := absAssign d.absbits,
              hatPairs := hatAssign d.absbits }

/-- The `scan_controllers` loop: `if (app->num_controllers >= MAX_CONTROLLERS)
break;` at the top of each iteration, append on success. -/
def scanGo : List Dev → List CtrlRec → List CtrlRec
  | [], acc => acc
  | d :: rest, acc =>
    if 8 ≤ acc.length then acc
    else match scanDev d with
      | some r => scanGo rest (acc ++ [r])
      | none => scanGo rest acc

/-- `scan_controllers`: rebuild the registry from an empty one. -/
def scan_controllers (devs : List Dev) : List CtrlRec := scanGo devs []

theorem scanGo_eq (devs : List Dev) :
    ∀ acc, scanGo devs acc = acc ++ (devs.filterMap scanDev).take (8 - acc.length) := by
  induction devs with
  | nil => intro acc; simp [scanGo]
  | cons d rest ih =>
    intro acc
    rw [scanGo]
    by_cases h8 : 8 ≤ acc.length
    · rw [if_pos h8, Nat.sub_eq_zero_of_le h8, List.take_zero, List.append_nil]
    · rw [if_neg h8]
      cases hd : scanDev d with
      | some r =>
        dsimp only
        rw [List.filterMap_cons_some hd, ih (acc ++ [r])]
        have hlen : (acc ++ [r]).length = acc.length + 1 := by
          rw [List.length_append, List.length_cons, List.length_nil]
        have hsub : 8 - acc.length = (8 - (acc.length + 1)) + 1 := by omega
        rw [hlen, hsub, List.take_succ_cons, List.append_assoc, List.singleton_append]
      | none =>
        dsimp only
        rw [List.filterMap_cons_none hd, ih acc]

theorem scanDev_gamepad (d : Dev) (r : CtrlRec) (h : scanDev d = some r) :
    is_gamepad d.evbits d.absbits d.keybits = true := by
  unfold scanDev at h
  by_cases c1 : d.entName.length ≤ 5
  · rw [if_pos c1] at h; exact absurd h (by simp)
  rw [if_neg c1] at h
  by_cases c2 : d.entName.data.take 5 ≠ "event".data
  · rw [if_pos c2] at h; exact absurd h (by simp)
  rw [if_neg c2] at h
  by_cases c3 : (!d.openOk) = true
  · rw [if_pos c3] at h; exact absurd h (by simp)
  rw [if_neg c3] at h
  by_cases c4 : (!is_gamepad d.evbits d.absbits d.keybits) = true
  · rw [if_pos c4] at h; exact absurd h (by simp)
  · simpa using c4

/-- C10: after any `scan_controllers` pass, the registry is exactly the
first eight matching devices in scan order -- so it never holds more than
`MAX_CONTROLLERS = 8` records, matching devices past the eighth are
silently ignored, and every registered record came from a device that
satisfied `is_gamepad` during that scan. -/
theorem scan_controllers_bound (devs : List Dev) :
    scan_controllers devs = (devs.filterMap scanDev).take 8 ∧
    (scan_controllers devs).length ≤ 8 ∧
    ∀ r ∈ scan_controllers devs, ∃ d ∈ devs, scanDev d = some r ∧
      is_gamepad d.evbits d.absbits d.keybits = true := by
  have heq : scan_controllers devs = (devs.filterMap scanDev).take 8 := by
    unfold scan_controllers
    rw [scanGo_eq devs []]
    rfl
  refine ⟨heq, ?_, ?_⟩
  · rw [heq, List.length_take]
    omega
  · intro r hr
    rw [heq] at hr
    have hr' : r ∈ devs.filterMap scanDev := List.take_subset _ _ hr
    rw [List.mem_filterMap] at hr'
    obtain ⟨d, hd, hrd⟩ := hr'
    exact ⟨d, hd, hrd, scanDev_gamepad d r hrd⟩
